import Mathlib

/-!
A shallow embedding of the Monkey-style interpreter (packages `token`, `lexer`,
`ast`, `object`, `parser`, `evaluator`) and proofs about its behaviour.

Conventions of the embedding:
* Go interface values that may be `nil` are modelled as `Option`; a `nil`
  `object.Object` is `none`.
* A Go run-time panic (nil dereference, slice index out of range, integer
  divide by zero, failed type assertion) is modelled as the distinguished
  result `Res.panic`; it propagates through every evaluation step, the way a
  panic unwinds the host stack.
* The recursive evaluator and parser take an explicit fuel argument; a
  distinguished `fuelOut` result marks fuel exhaustion (the host has no
  analogue; concrete runs simply use enough fuel, and general theorems
  quantify over the fuel).
* Go's `int64` is modelled as `Int` (no claim below depends on 64-bit
  wrap-around); Go `len` of a string counts bytes, modelled with
  `String.utf8ByteSize`.
-/

namespace Monkey

namespace token

/-- Token kind constants of the `token` package (`TokenType` is a Go string). -/
def ILLEGAL : String := "ILLEGAL"

def EOF : String := ""

def IDENTIFIER : String := "IDENTIFIER"

def INT : String := "INT"

def ASSIGN : String := "="

def PLUS : String := "+"

def MINUS : String := "-"

def EQ : String := "=="

def NEQ : String := "!="

def STAR : String := "*"

def GR : String := ">"

def LE : String := "<"

def SLASH : String := "/"

def EXCLA : String := "!"

def COMMA : String := ","

def SEMICOLON : String := ";"

def LP : String := "("

def RP : String := ")"

def LB : String := "\x7b"

def RB : String := "\x7d"

def LET : String := "LET"

def FUNC : String := "FUNCTION"

def TRUE : String := "TRUE"

def FALSE : String := "FALSE"

def RETURN : String := "RETURN"

def IF : String := "IF"

def ELSE : String := "ELSE"

def STRING : String := "STRING"

def LSB : String := "["

def RSB : String := "]"

/-- Modelled from the spec: the token kind `COLON` for the `:` operator
(spec §6 lists `COLON` among the token kinds, written with its character like
`ASSIGN(=)`).  The constant is referenced by the parser (`parseHashExpression`)
and the lexer test, but its definition is not among the given sources of the
`token` package. -/
def COLON : String := ":"

/-- The `token.Token` struct: a kind and the literal text. -/
structure Token where
  ttype : String
  literal : String

/-- The keyword table consulted by `LookupIdent`. -/
def LookupIdent (ident : String) : String :=
  if ident == ("let") then LET
  else if ident == ("fn") then FUNC
  else if ident == ("true") then TRUE
  else if ident == ("false") then FALSE
  else if ident == ("if") then IF
  else if ident == ("else") then ELSE
  else if ident == ("return") then RETURN
  else IDENTIFIER

end token

namespace ast

/- Modelled from the spec: the node structures of the `interpreter/ast`
package (spec §3, AST node), whose source file is not among the given
sources; the fields are exactly those the given parser constructs and the
given evaluator consumes.  Child node pointers are nilable in Go, hence
`Option`; an `ast.Identifier` used as a name or parameter is carried as its
`Value` string.  Go nil slices and empty slices behave identically in the
given code (only ranged over / measured with `len`), so both are a `List`. -/
mutual

inductive Expression where
  | integerLiteral (value : Int)
  | boolean (value : Bool)
  | stringLiteral (value : String)
  | identifier (value : String)
  | prefixExpression (operator : String) (right : Option Expression)
  | infixExpression (left : Option Expression) (operator : String) (right : Option Expression)
  | ifExpression (condition : Option Expression) (consequence : BlockStatements)
      (alternatives : Option BlockStatements)
  | functionLiteral (parameters : List String) (body : BlockStatements)
  | callExpression (function : Option Expression) (arguments : List (Option Expression))
  | array (items : List (Option Expression))
  | indexExpression (leftExpression : Option Expression) (index : Option Expression)
  | hashExpression (pairs : List (Option Expression × Option Expression))

inductive Statement where
  | letStatement (name : String) (value : Option Expression)
  | returnStatement (returnValue : Option Expression)
  | expressionStatement (expression : Option Expression)

inductive BlockStatements where
  | mk (statements : List Statement)

end

/-- The statement list of a block. -/
def BlockStatements.statements : BlockStatements → List Statement
  | .mk s => s

end ast

namespace object

/-- `ObjectType` tag constants of the `object` package. -/
def INTEGER_OBJ : String := "INTEGER"

def BOOLEAN_OBJ : String := "BOOLEAN"

def NULL_OBJ : String := "NULL"

def RETURN_VALUE_OBJ : String := "RETURN VALUE"

def ERROR_OBJ : String := "ERROR"

def FUNCTION_OBJ : String := "FUNCTION"

def STRING_OBJ : String := "STRING"

def BUILTIN_OBJ : String := "BUILTIN"

def ARRAY_OBJ : String := "ARRAY"

def HASH_OBJ : String := "HASH"

/-- The runtime value model of the `object` package.  A `Function` closure
stores its captured environment (a chain of scopes, innermost first, see
`Env` below).  A `Builtin` is identified by its registry name; its native
code lives in `evaluator.builtinFn` (defunctionalised `Fn` field).  Fields of
type `Option Obj` model Go `object.Object` interface values that may be nil. -/
inductive Obj where
  | integer (value : Int)
  | boolean (value : Bool)
  | null
  | returnValue (value : Option Obj)
  | error (message : String)
  | function (parameters : List String) (body : ast.BlockStatements)
      (env : List (List (String × Option Obj)))
  | string (value : String)
  | builtin (name : String)
  | array (elements : List (Option Obj))
  | hash (pairs : List (Option Obj × Option Obj))

/-- A possibly-nil Go `object.Object` interface value. -/
abbrev GoObj := Option Obj

/-- One environment's store: a finite map from names to objects. -/
abbrev Scope := List (String × GoObj)

/-- Modelled from the spec: the `object` package's `Enviroment` (spec §3,
Environment: `{bindings: mapping from name to Object, outer: optional shared
reference to parent Environment}`); its source file is not among the given
sources.  The outer-pointer chain is flattened to a nonempty list of scopes,
innermost first. -/
abbrev Env := List Scope

/-- The `Type()` method: the type tag of an object. -/
def Obj.type : Obj → String
  | .integer _ => INTEGER_OBJ
  | .boolean _ => BOOLEAN_OBJ
  | .null => NULL_OBJ
  | .returnValue _ => RETURN_VALUE_OBJ
  | .error _ => ERROR_OBJ
  | .function _ _ _ => FUNCTION_OBJ
  | .string _ => STRING_OBJ
  | .builtin _ => BUILTIN_OBJ
  | .array _ => ARRAY_OBJ
  | .hash _ => HASH_OBJ

/-- Insert-or-overwrite in a single scope's store (Go map assignment). -/
def scopeSet : Scope → String → GoObj → Scope
  | [], k, v => [(k, v)]
  | (k0, v0) :: rest, k, v =>
      if k0 == k then (k, v) :: rest else (k0, v0) :: scopeSet rest k v

/-- Lookup in a single scope's store; distinguishes "absent" from "bound to
nil" the way a Go map's `ok` flag does. -/
def scopeGet : Scope → String → Option GoObj
  | [], _ => none
  | (k0, v0) :: rest, k => if k0 == k then some v0 else scopeGet rest k

/-- Modelled from the spec: `Enviroment.Get` — check the own store first,
then the outer chain (spec §4.3, identifier resolution order). -/
def envGet : Env → String → Option GoObj
  | [], _ => none
  | s :: outer, k =>
      match scopeGet s k with
      | some v => some v
      | none => envGet outer k

/-- Modelled from the spec: `Enviroment.Set` — bind in the innermost store
(spec §5: a closure "only writes into its own innermost scope"). -/
def envSet (env : Env) (k : String) (v : GoObj) : Env :=
  match env with
  | [] => [scopeSet [] k v]
  | s :: outer => scopeSet s k v :: outer

/-- Modelled from the spec: `NewEnviroment` — a fresh root environment. -/
def newEnviroment : Env := [[]]

/-- Modelled from the spec: `NewEnclosedEnviroment` — a fresh empty store
whose outer environment is the given one (spec §3, Environment lifetime). -/
def newEnclosedEnviroment (outer : Env) : Env := [] :: outer

end object

namespace evaluator

/-- The `NULL` singleton of the evaluator. -/
def NULL : object.Obj := .null

/-- The `TRUE` Boolean singleton of the evaluator. -/
def TRUE : object.Obj := .boolean true

/-- The `FALSE` Boolean singleton of the evaluator. -/
def FALSE : object.Obj := .boolean false

/-- Result of one evaluation step: a (possibly nil) `object.Object`, a Go
run-time panic, or fuel exhaustion (an artifact of the embedding). -/
inductive Res where
  | obj (o : object.GoObj)
  | panic
  | fuelOut

/-- Result of `evalExpressions`: an argument list, or a propagated panic or
fuel exhaustion. -/
inductive ResList where
  | objs (os : List object.GoObj)
  | panic
  | fuelOut

/-- `newError`: build an Error object from a message. -/
def newError (message : String) : object.Obj := .error message

/-- `isError`: non-nil and tagged `ERROR`. -/
def isError : object.GoObj → Bool
  | some o => o.type == object.ERROR_OBJ
  | none => false

/-- `nativeBoolObject`: the shared Boolean singletons. -/
def nativeBoolObject (input : Bool) : object.Obj :=
  if input then TRUE else FALSE

/-- Go interface identity (`==`) as used by the `==`/`!=` fallthrough of
`evalInfixExpression` and the singleton comparisons.  Pointer identity is
decided structurally on `nil`, `NULL` and the Boolean singletons, which is
exact because every Boolean/Null object the evaluator creates is one of the
shared singletons.  Compound objects reaching this comparison are pointers
whose identity the embedding cannot observe; they are modelled as distinct
(the fresh-allocation case).  No theorem below rests on a compound-operand
comparison. -/
def goIdentityEq : object.GoObj → object.GoObj → Bool
  | none, none => true
  | some .null, some .null => true
  | some (.boolean a), some (.boolean b) => a == b
  | _, _ => false

/-- The native bodies of the builtin registry (the `Fn` fields from the
`builtins` map), dispatched by registry name.  `puts` prints its arguments
and returns `NULL`; the printing is I/O and is not modelled, but
`Inspect()` on a nil argument is a panic and is. -/
def builtinFn (name : String) (args : List object.GoObj) : Res :=
  if name == ("len") then
    if args.length != 1 then
      Res.obj (some (newError (("wrong number of arguments. got=") ++ toString args.length ++ (", want=1"))))
    else
      match args.headD none with
      | some (.array elements) => Res.obj (some (.integer elements.length))
      | some (.string s) => Res.obj (some (.integer s.utf8ByteSize))
      | some o => Res.obj (some (newError (("argument to `len` not supported, got ") ++ o.type)))
      | none => Res.panic
  else if name == ("first") then
    if args.length != 1 then
      Res.obj (some (newError (("wrong number of arguments. got=") ++ toString args.length ++ (", want=1"))))
    else
      match args.headD none with
      | some (.array elements) =>
          if elements.length < 1 then Res.obj (some NULL)
          else Res.obj (elements.headD none)
      | some o => Res.obj (some (newError (("argument to `first` must be ARRAY, got ") ++ o.type)))
      | none => Res.panic
  else if name == ("last") then
    if args.length != 1 then
      Res.obj (some (newError (("wrong number of arguments. got=") ++ toString args.length ++ (", want=1"))))
    else
      match args.headD none with
      | some (.array elements) =>
          if elements.length < 1 then Res.obj (some NULL)
          else Res.obj (elements.getD (elements.length - 1) none)
      | some o => Res.obj (some (newError (("argument to `last` must be ARRAY, got ") ++ o.type)))
      | none => Res.panic
  else if name == ("rest") then
    if args.length != 1 then
      Res.obj (some (newError (("wrong number of arguments. got=") ++ toString args.length ++ (", want=1"))))
    else
      match args.headD none with
      | some (.array elements) =>
          if elements.length < 1 then Res.obj (some NULL)
          else Res.obj (some (.array (elements.drop 1)))
      | some o => Res.obj (some (newError (("argument to `rest` must be ARRAY, got ") ++ o.type)))
      | none => Res.panic
  else if name == ("push") then
    if args.length != 2 then
      Res.obj (some (newError (("wrong number of arguments. got=") ++ toString args.length ++ (", want=2"))))
    else
      match args with
      | a :: b :: _ =>
          match a with
          | some (.array elements) => Res.obj (some (.array (elements ++ [b])))
          | some o => Res.obj (some (newError (("argument to `push` must be ARRAY, got ") ++ o.type)))
          | none => Res.panic
      | _ => Res.panic
  else if name == ("puts") then
    if args.any (fun a => a.isNone) then Res.panic
    else Res.obj (some NULL)
  else Res.panic

/-- The builtin registry lookup (`builtins[name]`). -/
def builtins (name : String) : Option object.Obj :=
  if name == ("len") || name == ("first") || name == ("last")
      || name == ("rest") || name == ("push") || name == ("puts") then
    some (.builtin name)
  else none

/-- `evalIdentifier`: environment chain first, then the builtin table, else
an "identifier not found" Error. -/
def evalIdentifier (name : String) (env : object.Env) : Res :=
  match object.envGet env name with
  | some val => Res.obj val
  | none =>
      match builtins name with
      | some val => Res.obj (some val)
      | none => Res.obj (some (newError (("identifier not found: ") ++ name)))

/-- `evalBangOperatorExpression`: pointer comparisons against the
`TRUE`/`FALSE`/`NULL` singletons; everything else (nil included) negates to
`FALSE`. -/
def evalBangOperatorExpression (val : object.GoObj) : object.Obj :=
  match val with
  | some (.boolean true) => FALSE
  | some (.boolean false) => TRUE
  | some .null => TRUE
  | _ => FALSE

/-- `evalMinusPrefixOperator`: only defined on Integer; `val.Type()` on a nil
operand is a nil dereference. -/
def evalMinusPrefixOperator (val : object.GoObj) : Res :=
  match val with
  | none => Res.panic
  | some o =>
      if o.type != object.INTEGER_OBJ then
        Res.obj (some (newError (("unknown operator: -") ++ o.type)))
      else
        match o with
        | .integer value => Res.obj (some (.integer (-value)))
        | _ => Res.panic

/-- `evalPrefixExpressions`: dispatch on the operator text. -/
def evalPrefixExpressions (op : String) (val : object.GoObj) : Res :=
  if op == ("!") then Res.obj (some (evalBangOperatorExpression val))
  else if op == ("-") then evalMinusPrefixOperator val
  else
    match val with
    | none => Res.panic
    | some o => Res.obj (some (newError (("unknown operator: ") ++ op ++ o.type)))

/-- `evalInfixIntegerExpression` (note the source's `(op, right, left)`
argument order): Go `int64` arithmetic on `Int`; `/` is the host's truncated
division, which panics on a zero divisor. -/
def evalInfixIntegerExpression (op : String) (right left : object.GoObj) : Res :=
  match right, left with
  | some (.integer right_val), some (.integer left_val) =>
      if op == ("+") then Res.obj (some (.integer (right_val + left_val)))
      else if op == ("-") then Res.obj (some (.integer (left_val - right_val)))
      else if op == ("*") then Res.obj (some (.integer (right_val * left_val)))
      else if op == ("/") then
        if right_val == 0 then Res.panic
        else Res.obj (some (.integer (Int.tdiv left_val right_val)))
      else if op == (">") then Res.obj (some (nativeBoolObject (decide (left_val > right_val))))
      else if op == ("<") then Res.obj (some (nativeBoolObject (decide (left_val < right_val))))
      else if op == ("==") then Res.obj (some (nativeBoolObject (left_val == right_val)))
      else if op == ("!=") then Res.obj (some (nativeBoolObject (left_val != right_val)))
      else
        Res.obj (some (newError (("unknown operator: ") ++ object.INTEGER_OBJ ++ (" ") ++ op
          ++ (" ") ++ object.INTEGER_OBJ)))
  | _, _ => Res.panic

/-- `evalInfixStringExpression`: only `+` is defined; the error message is
built from the operands' type tags before the `*object.String` assertions. -/
def evalInfixStringExpression (op : String) (right left : object.GoObj) : Res :=
  match right, left with
  | some r, some l =>
      if op != ("+") then
        Res.obj (some (newError (("unknown operator: ") ++ l.type ++ (" ") ++ op ++ (" ") ++ r.type)))
      else
        match l, r with
        | .string leftVal, .string rightVal => Res.obj (some (.string (leftVal ++ rightVal)))
        | _, _ => Res.panic
  | _, _ => Res.panic

/-- `evalInfixExpression`: the source's switch, in source order — both-Integer,
both-String, `==` identity, `!=` identity, type mismatch, unknown operator.
The case guards call `right.Type()` and (short-circuit permitting)
`left.Type()`, so a nil operand panics exactly where Go dereferences it. -/
def evalInfixExpression (op : String) (right left : object.GoObj) : Res :=
  match right, left with
  | none, _ => Res.panic
  | some r, none =>
      if r.type == object.INTEGER_OBJ || r.type == object.STRING_OBJ then Res.panic
      else if op == ("==") then Res.obj (some (nativeBoolObject (goIdentityEq left right)))
      else if op == ("!=") then Res.obj (some (nativeBoolObject (!goIdentityEq right left)))
      else Res.panic
  | some r, some l =>
      if r.type == object.INTEGER_OBJ && l.type == object.INTEGER_OBJ then
        evalInfixIntegerExpression op right left
      else if r.type == object.STRING_OBJ && l.type == object.STRING_OBJ then
        evalInfixStringExpression op right left
      else if op == ("==") then Res.obj (some (nativeBoolObject (goIdentityEq left right)))
      else if op == ("!=") then Res.obj (some (nativeBoolObject (!goIdentityEq right left)))
      else if r.type != l.type then
        Res.obj (some (newError (("type mismatch: ") ++ l.type ++ (" ") ++ op ++ (" ") ++ r.type)))
      else
        Res.obj (some (newError (("unknown operator: ") ++ l.type ++ (" ") ++ op ++ (" ") ++ r.type)))

/-- `evalArrayIndexExpression`: negative or past-the-end indices yield the
`NULL` singleton, in-range indices the element; the `*object.Array` and
`*object.Integer` assertions are the caller's guarantee. -/
def evalArrayIndexExpression (array index : object.GoObj) : Res :=
  match array, index with
  | some (.array elements), some (.integer idx) =>
      let mx : Int := (elements.length : Int) - 1
      if idx < 0 ∨ idx > mx then Res.obj (some NULL)
      else Res.obj (elements.getD idx.toNat none)
  | _, _ => Res.panic

/-- `evalIndexExpression`: only Array-by-Integer is supported; every other
combination is an "index operator not supported" Error naming the left
operand's type. -/
def evalIndexExpression (left index : object.GoObj) : Res :=
  match left with
  | none => Res.panic
  | some l =>
      if l.type == object.ARRAY_OBJ then
        match index with
        | none => Res.panic
        | some i =>
            if i.type == object.INTEGER_OBJ then evalArrayIndexExpression left index
            else Res.obj (some (newError (("index operator not supported: ") ++ l.type)))
      else Res.obj (some (newError (("index operator not supported: ") ++ l.type)))

/-- The parameter-binding loop of `applyFunction`: each declared parameter is
bound to `params[paramID]` positionally; a missing argument makes that index
out of range — a Go panic, `none` here.  Surplus arguments are ignored. -/
def bindAll : List object.GoObj → List String → object.Env → Option object.Env
  | _, [], env => some env
  | a :: rest, p :: ps, env => bindAll rest ps (object.envSet env p a)
  | [], _ :: _, _ => none

mutual

/-- `Eval` on an expression node (the expression arms of the source's switch;
a nil node matches no arm and yields nil).  The environment is threaded to
model in-place `Enviroment` mutation. -/
def evalExpr : Nat → Option ast.Expression → object.Env → Res × object.Env
  | 0, _, env => (Res.fuelOut, env)
  | _ + 1, none, env => (Res.obj none, env)
  | fuel + 1, some node, env =>
    match node with
    | .integerLiteral v => (Res.obj (some (.integer v)), env)
    | .boolean b => (Res.obj (some (nativeBoolObject b)), env)
    | .stringLiteral s => (Res.obj (some (.string s)), env)
    | .prefixExpression op right =>
        match evalExpr fuel right env with
        | (Res.obj r, env1) =>
            if isError r then (Res.obj r, env1)
            else (evalPrefixExpressions op r, env1)
        | other => other
    | .infixExpression left op right =>
        match evalExpr fuel left env with
        | (Res.obj l, env1) =>
            if isError l then (Res.obj l, env1)
            else
              match evalExpr fuel right env1 with
              | (Res.obj r, env2) =>
                  if isError r then (Res.obj r, env2)
                  else (evalInfixExpression op r l, env2)
              | other => other
        | other => other
    | .ifExpression cond conseq alt => evalIfExpression fuel cond conseq alt env
    | .identifier name => (evalIdentifier name env, env)
    | .functionLiteral ps body => (Res.obj (some (.function ps body env)), env)
    | .callExpression fexp args =>
        match evalExpr fuel fexp env with
        | (Res.obj fo, env1) =>
            if isError fo then (Res.obj fo, env1)
            else
              match evalExpressions fuel args env1 with
              | (ResList.objs params, env2) =>
                  if params.length == 1 && isError (params.headD none) then
                    (Res.obj (params.headD none), env2)
                  else (applyFunction fuel fo params, env2)
              | (ResList.panic, env2) => (Res.panic, env2)
              | (ResList.fuelOut, env2) => (Res.fuelOut, env2)
        | other => other
    | .array items =>
        match evalExpressions fuel items env with
        | (ResList.objs ele, env1) =>
            if ele.length == 1 && isError (ele.headD none) then
              (Res.obj (ele.headD none), env1)
            else (Res.obj (some (.array ele)), env1)
        | (ResList.panic, env1) => (Res.panic, env1)
        | (ResList.fuelOut, env1) => (Res.fuelOut, env1)
    | .indexExpression leftExp idx =>
        match evalExpr fuel leftExp env with
        | (Res.obj lo, env1) =>
            match evalExpr fuel idx env1 with
            | (Res.obj io, env2) =>
                if isError lo then (Res.obj lo, env2)
                else if isError io then (Res.obj io, env2)
                else (evalIndexExpression lo io, env2)
            | other => other
        | other => other
    | .hashExpression _ => (Res.obj none, env)

/-- `Eval` on a statement node (the statement arms of the source's switch);
a `let` binds in the environment and falls out of the switch, yielding nil. -/
def evalStmt : Nat → ast.Statement → object.Env → Res × object.Env
  | 0, _, env => (Res.fuelOut, env)
  | fuel + 1, .expressionStatement e, env => evalExpr fuel e env
  | fuel + 1, .returnStatement rv, env =>
      match evalExpr fuel rv env with
      | (Res.obj val, env1) =>
          if isError val then (Res.obj val, env1)
          else (Res.obj (some (.returnValue val)), env1)
      | other => other
  | fuel + 1, .letStatement name value, env =>
      match evalExpr fuel value env with
      | (Res.obj exp, env1) =>
          if isError exp then (Res.obj exp, env1)
          else (Res.obj none, object.envSet env1 name exp)
      | other => other

/-- `evalStatements` (bare blocks): run statements in order keeping the last
result (`var result Object` starts nil); stop and return the running result
unchanged when it is non-nil and tagged `RETURN VALUE` or `ERROR`. -/
def evalStatements : Nat → List ast.Statement → object.Env → Res × object.Env
  | 0, _, env => (Res.fuelOut, env)
  | _ + 1, [], env => (Res.obj none, env)
  | fuel + 1, s :: rest, env =>
      match evalStmt fuel s env with
      | (Res.obj result, env1) =>
          if (match result with
              | some o => o.type == object.RETURN_VALUE_OBJ || o.type == object.ERROR_OBJ
              | none => false) then
            (Res.obj result, env1)
          else
            match rest with
            | [] => (Res.obj result, env1)
            | _ :: _ => evalStatements fuel rest env1
      | other => other

/-- `evalProgram` (the top level): like `evalStatements`, but a type switch on
the running result returns a `*ReturnValue`'s inner `.Value` (unwrapped) and
an `*Error` unchanged. -/
def evalProgram : Nat → List ast.Statement → object.Env → Res × object.Env
  | 0, _, env => (Res.fuelOut, env)
  | _ + 1, [], env => (Res.obj none, env)
  | fuel + 1, s :: rest, env =>
      match evalStmt fuel s env with
      | (Res.obj result, env1) =>
          match result with
          | some (.returnValue v) => (Res.obj v, env1)
          | some (.error m) => (Res.obj (some (.error m)), env1)
          | _ =>
              match rest with
              | [] => (Res.obj result, env1)
              | _ :: _ => evalProgram fuel rest env1
      | other => other

/-- `evalExpressions`: evaluate an argument/element list left to right; on the
first Error, return the singleton list holding it. -/
def evalExpressions : Nat → List (Option ast.Expression) → object.Env → ResList × object.Env
  | 0, _, env => (ResList.fuelOut, env)
  | _ + 1, [], env => (ResList.objs [], env)
  | fuel + 1, e :: rest, env =>
      match evalExpr fuel e env with
      | (Res.obj evaluated, env1) =>
          if isError evaluated then (ResList.objs [evaluated], env1)
          else
            match evalExpressions fuel rest env1 with
            | (ResList.objs res, env2) => (ResList.objs (evaluated :: res), env2)
            | other => other
      | (Res.panic, env1) => (ResList.panic, env1)
      | (Res.fuelOut, env1) => (ResList.fuelOut, env1)

/-- `evalIfExpression`: the condition is falsy only when its type tag is
`BOOLEAN` and it is (by pointer identity) `NULL` or `FALSE`; a nil condition
result panics at `res.Type()`. -/
def evalIfExpression : Nat → Option ast.Expression → ast.BlockStatements →
    Option ast.BlockStatements → object.Env → Res × object.Env
  | 0, _, _, _, env => (Res.fuelOut, env)
  | fuel + 1, cond, conseq, alt, env =>
      match evalExpr fuel cond env with
      | (Res.obj res, env1) =>
          if isError res then (Res.obj res, env1)
          else
            match res with
            | none => (Res.panic, env1)
            | some o =>
                if o.type == object.BOOLEAN_OBJ
                    && (goIdentityEq (some o) (some NULL) || goIdentityEq (some o) (some FALSE)) then
                  match alt with
                  | none => (Res.obj (some NULL), env1)
                  | some b => evalStatements fuel b.statements env1
                else evalStatements fuel conseq.statements env1
      | other => other

/-- `applyFunction`: a `*Function` gets a fresh environment enclosing its
captured one, positional parameter binding, body evaluation, and a
`*ReturnValue` unwrap; a `*Builtin` is invoked only after a blanket
one-argument check; anything else is a "not a function" Error (`fn.Type()`
on nil panics). -/
def applyFunction : Nat → object.GoObj → List object.GoObj → Res
  | 0, _, _ => Res.fuelOut
  | fuel + 1, some (.function parameters body fenv), params =>
      match bindAll params parameters (object.newEnclosedEnviroment fenv) with
      | none => Res.panic
      | some new_env =>
          match evalStatements fuel body.statements new_env with
          | (Res.obj (some (.returnValue v)), _) => Res.obj v
          | (Res.obj evaluated, _) => Res.obj evaluated
          | (other, _) => other
  | _ + 1, some (.builtin name), params =>
      if params.length != 1 then
        Res.obj (some (newError (("wrong number of arguments. got=") ++ toString params.length
          ++ (", want=1"))))
      else builtinFn name params
  | _ + 1, some fn, _ => Res.obj (some (newError (("not a function: ") ++ fn.type)))
  | _ + 1, none, _ => Res.panic

end

end evaluator

namespace lexer

/-- The `lexer.Lexer`: Go's byte cursor over the input string; the bytes of
the sources at hand are ASCII, modelled as `Char` with `Char.ofNat 0` for
Go's sentinel byte 0. -/
structure Lexer where
  input : List Char
  position : Nat
  readPosition : Nat
  ch : Char

/-- `readChar`: advance the cursor, with byte 0 past the end. -/
def readChar (l : Lexer) : Lexer :=
  { input := l.input
    position := l.readPosition
    readPosition := l.readPosition + 1
    ch := if l.readPosition ≥ l.input.length then Char.ofNat 0
          else l.input.getD l.readPosition (Char.ofNat 0) }

/-- `New`: a lexer on the input, primed with one `readChar`. -/
def New (input : String) : Lexer :=
  readChar { input := input.data, position := 0, readPosition := 0, ch := Char.ofNat 0 }

/-- `peakchar`: one byte of lookahead, 0 at the end (Go's `len(l.input)-1` on
`int` agrees with the truncated `Nat` subtraction here for every length). -/
def peakchar (l : Lexer) : Char :=
  if l.position < l.input.length - 1 then l.input.getD (l.position + 1) (Char.ofNat 0)
  else Char.ofNat 0

/-- `isLetter`. -/
def isLetter (ch : Char) : Bool :=
  (decide (Char.ofNat 97 ≤ ch) && decide (ch ≤ Char.ofNat 122))
    || (decide (Char.ofNat 65 ≤ ch) && decide (ch ≤ Char.ofNat 90)) || ch == ('_')

/-- `isDigit`. -/
def isDigit (ch : Char) : Bool :=
  decide (Char.ofNat 48 ≤ ch) && decide (ch ≤ Char.ofNat 57)

/-- `skipWhitespace` (fuel-bounded loop). -/
def skipWhitespace : Nat → Lexer → Lexer
  | 0, l => l
  | fuel + 1, l =>
      if l.ch == (' ') || l.ch == ('\n') || l.ch == ('\t') || l.ch == ('\r') then
        skipWhitespace fuel (readChar l)
      else l

/-- The scan loop of `readIdentifier`. -/
def readIdentifierLoop : Nat → Lexer → Lexer
  | 0, l => l
  | fuel + 1, l => if isLetter l.ch then readIdentifierLoop fuel (readChar l) else l

/-- Go string slicing `input[start:stop]`. -/
def sliceStr (input : List Char) (start stop : Nat) : String :=
  String.mk ((input.drop start).take (stop - start))

/-- `readIdentifier`: the letter run from the current position. -/
def readIdentifier (fuel : Nat) (l : Lexer) : String × Lexer :=
  let l1 := readIdentifierLoop fuel l
  (sliceStr l.input l.position l1.position, l1)

/-- The scan loop of `readNumber`. -/
def readNumberLoop : Nat → Lexer → Lexer
  | 0, l => l
  | fuel + 1, l => if isDigit l.ch then readNumberLoop fuel (readChar l) else l

/-- `readNumber`: the digit run from the current position. -/
def readNumber (fuel : Nat) (l : Lexer) : String × Lexer :=
  let l1 := readNumberLoop fuel l
  (sliceStr l.input l.position l1.position, l1)

/-- The scan loop of `readString`: advance until a closing quote or byte 0. -/
def readStringLoop : Nat → Lexer → Lexer
  | 0, l => l
  | fuel + 1, l =>
      let l1 := readChar l
      if l1.ch == ('"') || l1.ch == Char.ofNat 0 then l1 else readStringLoop fuel l1

/-- `readString`: the text between the quotes (no escape processing). -/
def readString (fuel : Nat) (l : Lexer) : String × Lexer :=
  let l1 := readStringLoop fuel l
  (sliceStr l.input (l.position + 1) l1.position, l1)

/-- `newToken`: a one-character token. -/
def newToken (tokenType : String) (ch : Char) : token.Token :=
  ⟨tokenType, String.mk [ch]⟩

/-- `NextToken`: skip whitespace and dispatch on the current character, in
the switch order of the source; note there is no case for `:` — it reaches
the default branch and, being neither letter nor digit, becomes `ILLEGAL`. -/
def NextToken (fuel : Nat) (l0 : Lexer) : token.Token × Lexer :=
  let l := skipWhitespace fuel l0
  if l.ch == ('=') then
    if peakchar l == ('=') then
      let ch := l.ch
      let l1 := readChar l
      (⟨token.EQ, String.mk [ch, l1.ch]⟩, readChar l1)
    else (newToken token.ASSIGN l.ch, readChar l)
  else if l.ch == (';') then (newToken token.SEMICOLON l.ch, readChar l)
  else if l.ch == ('(') then (newToken token.LP l.ch, readChar l)
  else if l.ch == (')') then (newToken token.RP l.ch, readChar l)
  else if l.ch == (',') then (newToken token.COMMA l.ch, readChar l)
  else if l.ch == ('+') then (newToken token.PLUS l.ch, readChar l)
  else if l.ch == Char.ofNat 123 then (newToken token.LB l.ch, readChar l)
  else if l.ch == Char.ofNat 125 then (newToken token.RB l.ch, readChar l)
  else if l.ch == ('-') then (newToken token.MINUS l.ch, readChar l)
  else if l.ch == ('/') then (newToken token.SLASH l.ch, readChar l)
  else if l.ch == ('*') then (newToken token.STAR l.ch, readChar l)
  else if l.ch == ('>') then (newToken token.GR l.ch, readChar l)
  else if l.ch == ('<') then (newToken token.LE l.ch, readChar l)
  else if l.ch == ('!') then
    if peakchar l == ('=') then
      let ch := l.ch
      let l1 := readChar l
      (⟨token.NEQ, String.mk [ch, l1.ch]⟩, readChar l1)
    else (newToken token.EXCLA l.ch, readChar l)
  else if l.ch == Char.ofNat 0 then (⟨token.EOF, ("")⟩, readChar l)
  else if l.ch == ('"') then
    let sl := readString fuel l
    (⟨token.STRING, sl.1⟩, readChar sl.2)
  else if l.ch == ('[') then (newToken token.LSB l.ch, readChar l)
  else if l.ch == (']') then (newToken token.RSB l.ch, readChar l)
  else if isLetter l.ch then
    let sl := readIdentifier fuel l
    (⟨token.LookupIdent sl.1, sl.1⟩, sl.2)
  else if isDigit l.ch then
    let sl := readNumber fuel l
    (⟨token.INT, sl.1⟩, sl.2)
  else (newToken token.ILLEGAL l.ch, readChar l)

/-- Drain the lexer into a token list ending with the first `EOF` token (the
parser pulls tokens on demand; pre-lexing is equivalent because the lexer is
pure). -/
def lexAll : Nat → Lexer → List token.Token
  | 0, _ => []
  | fuel + 1, l =>
      let tl := NextToken fuel l
      if tl.1.ttype == token.EOF then [tl.1]
      else tl.1 :: lexAll fuel tl.2

end lexer

namespace parser

/-- Precedence levels (`iota` starting the block at 1). -/
def LOWEST : Nat := 1

def EQUALS : Nat := 2

def LESSGREATER : Nat := 3

def SUM : Nat := 4

def PRODUCT : Nat := 5

/-- `PREFIX` in the source. -/
def PREFIXP : Nat := 6

def CALL : Nat := 7

def INDEX : Nat := 8

/-- The `precedences` map (with the `ok` flag as `Option`). -/
def precedences (t : String) : Option Nat :=
  if t == token.EQ then some EQUALS
  else if t == token.NEQ then some EQUALS
  else if t == token.LE then some LESSGREATER
  else if t == token.GR then some LESSGREATER
  else if t == token.PLUS then some SUM
  else if t == token.MINUS then some SUM
  else if t == token.SLASH then some PRODUCT
  else if t == token.STAR then some PRODUCT
  else if t == token.LP then some CALL
  else if t == token.LSB then some INDEX
  else none

/-- The `parser.Parser` state: the pending token stream (the lexer yields
`EOF` forever once exhausted), the current/lookahead tokens, and the
accumulated error messages.  The prefix/infix dispatch tables registered in
`New` are static, so dispatch is inlined where the tables are consulted. -/
structure Parser where
  tokens : List token.Token
  curToken : token.Token
  peakToken : token.Token
  errors : List String

/-- `nextToken`: shift the lookahead window by one. -/
def nextToken (p : Parser) : Parser :=
  { tokens := p.tokens.drop 1
    curToken := p.peakToken
    peakToken := p.tokens.headD ⟨token.EOF, ("")⟩
    errors := p.errors }

/-- `New`: zero-valued current/lookahead tokens, then two `nextToken`s. -/
def New (toks : List token.Token) : Parser :=
  nextToken (nextToken { tokens := toks, curToken := ⟨(""), ("")⟩,
                         peakToken := ⟨(""), ("")⟩, errors := [] })

/-- `curTokenIs`. -/
def curTokenIs (p : Parser) (t : String) : Bool := p.curToken.ttype == t

/-- `peekTokenIs`. -/
def peekTokenIs (p : Parser) (t : String) : Bool := p.peakToken.ttype == t

/-- `PeekError`: record an unexpected-token message. -/
def PeekError (p : Parser) (t : String) : Parser :=
  { p with errors := p.errors
      ++ [("expected next token to be ") ++ t ++ (", got ") ++ p.peakToken.ttype ++ (" instead")] }

/-- `expectPeek`: advance on the expected lookahead, else record an error. -/
def expectPeek (p : Parser) (t : String) : Bool × Parser :=
  if peekTokenIs p t then (true, nextToken p) else (false, PeekError p t)

/-- `noPrefixParseFnError`. -/
def noPrefixParseFnError (p : Parser) (t : String) : Parser :=
  { p with errors := p.errors ++ [("no prefix parse function for ") ++ t ++ (" found")] }

/-- `peekPrecedence` (defaulting to `LOWEST`). -/
def peekPrecedence (p : Parser) : Nat := (precedences p.peakToken.ttype).getD LOWEST

/-- `curPrecedence` (defaulting to `LOWEST`). -/
def curPrecedence (p : Parser) : Nat := (precedences p.curToken.ttype).getD LOWEST

/-- Accumulate the value of a digit run in the given base; a digit at or past
the base is an error. -/
def digitsVal (base : Nat) (cs : List Char) : Option Nat :=
  cs.foldl (fun acc c =>
    match acc with
    | none => none
    | some n =>
        if decide (Char.ofNat 48 ≤ c) && decide (c.toNat - 48 < base) then
          some (n * base + (c.toNat - 48))
        else none) (some 0)

/-- `strconv.ParseInt(literal, 0, 64)` restricted to the decimal digit runs
the lexer produces: base 10, except that a multi-digit literal with a
leading `0` is octal under base-0 auto-detection; a digit past the base or a
value past `2^63 - 1` is an error (`none`), which the caller reports. -/
def parseIntValue (s : String) : Option Int :=
  match s.data with
  | [] => none
  | [c] =>
      match digitsVal 10 [c] with
      | none => none
      | some n => some (n : Int)
  | c :: rest =>
      if c == ('0') then
        match digitsVal 8 rest with
        | none => none
        | some n => if n ≤ 2 ^ 63 - 1 then some (n : Int) else none
      else
        match digitsVal 10 (c :: rest) with
        | none => none
        | some n => if n ≤ 2 ^ 63 - 1 then some (n : Int) else none

/-- `parseIdentifier`. -/
def parseIdentifier (p : Parser) : Option ast.Expression × Parser :=
  (some (.identifier p.curToken.literal), p)

/-- `parseBoolean`. -/
def parseBoolean (p : Parser) : Option ast.Expression × Parser :=
  (some (.boolean (curTokenIs p token.TRUE)), p)

/-- `parseStringLiteral`. -/
def parseStringLiteral (p : Parser) : Option ast.Expression × Parser :=
  (some (.stringLiteral p.curToken.literal), p)

/-- `parseIntegerLiteral`: `ParseInt` the literal, recording a "could not
parse" error (and yielding no node) on failure. -/
def parseIntegerLiteral (p : Parser) : Option ast.Expression × Parser :=
  match parseIntValue p.curToken.literal with
  | some v => (some (.integerLiteral v), p)
  | none =>
      (none, { p with errors := p.errors
        ++ [("could not parse \"") ++ p.curToken.literal ++ ("\" as integer")] })

mutual

/-- `parseStatement`: dispatch on the current token kind. -/
def parseStatement : Nat → Parser → Option ast.Statement × Parser
  | 0, p => (none, p)
  | fuel + 1, p =>
      if curTokenIs p token.LET then parseLetStatement fuel p
      else if curTokenIs p token.RETURN then parseReturnStatement fuel p
      else parseExpreesionStatement fuel p

/-- `parseLetStatement` (sic: the optional trailing semicolon is consumed). -/
def parseLetStatement : Nat → Parser → Option ast.Statement × Parser
  | 0, p => (none, p)
  | fuel + 1, p =>
      let r1 := expectPeek p token.IDENTIFIER
      if !r1.1 then (none, r1.2)
      else
        let p1 := r1.2
        let name := p1.curToken.literal
        let r2 := expectPeek p1 token.ASSIGN
        if !r2.1 then (none, r2.2)
        else
          let p3 := nextToken r2.2
          let vp := parseExpression fuel LOWEST p3
          let p5 := if peekTokenIs vp.2 token.SEMICOLON then nextToken vp.2 else vp.2
          (some (.letStatement name vp.1), p5)

/-- `parseReturnStatement`. -/
def parseReturnStatement : Nat → Parser → Option ast.Statement × Parser
  | 0, p => (none, p)
  | fuel + 1, p =>
      let p1 := nextToken p
      let vp := parseExpression fuel LOWEST p1
      let p3 := if peekTokenIs vp.2 token.SEMICOLON then nextToken vp.2 else vp.2
      (some (.returnStatement vp.1), p3)

/-- `parseExpreesionStatement` (name as in the source). -/
def parseExpreesionStatement : Nat → Parser → Option ast.Statement × Parser
  | 0, p => (none, p)
  | fuel + 1, p =>
      let ep := parseExpression fuel LOWEST p
      let p2 := if peekTokenIs ep.2 token.SEMICOLON then nextToken ep.2 else ep.2
      (some (.expressionStatement ep.1), p2)

/-- `parseExpression`: prefix-handler dispatch (the table registered in
`New`), then the precedence-climbing loop; a missing prefix handler records
an error and yields no expression at once. -/
def parseExpression : Nat → Nat → Parser → Option ast.Expression × Parser
  | 0, _, p => (none, p)
  | fuel + 1, precedence, p =>
      let t := p.curToken.ttype
      let disp : Option (Option ast.Expression × Parser) :=
        if t == token.LB then some (parseHashExpression fuel p)
        else if t == token.LSB then some (parseArrayExpression fuel p)
        else if t == token.STRING then some (parseStringLiteral p)
        else if t == token.FUNC then some (parseFunction fuel p)
        else if t == token.IF then some (parseIfExpression fuel p)
        else if t == token.LP then some (parseGroupExpressions fuel p)
        else if t == token.IDENTIFIER then some (parseIdentifier p)
        else if t == token.INT then some (parseIntegerLiteral p)
        else if t == token.MINUS then some (parsePrefixExpression fuel p)
        else if t == token.EXCLA then some (parsePrefixExpression fuel p)
        else if t == token.TRUE then some (parseBoolean p)
        else if t == token.FALSE then some (parseBoolean p)
        else none
      match disp with
      | none => (none, noPrefixParseFnError p t)
      | some lp => parseExpressionLoop fuel precedence lp.1 lp.2

/-- The `for` loop of `parseExpression`: while the lookahead is not a
semicolon and binds tighter than `precedence`, advance and apply the infix
handler (the table registered in `New`); an unregistered lookahead ends the
loop. -/
def parseExpressionLoop : Nat → Nat → Option ast.Expression → Parser →
    Option ast.Expression × Parser
  | 0, _, leftExp, p => (leftExp, p)
  | fuel + 1, precedence, leftExp, p =>
      if !(peekTokenIs p token.SEMICOLON) && decide (precedence < peekPrecedence p) then
        let t := p.peakToken.ttype
        if t == token.LP then
          let ep := parseCallExpression fuel leftExp (nextToken p)
          parseExpressionLoop fuel precedence ep.1 ep.2
        else if t == token.PLUS || t == token.MINUS || t == token.SLASH || t == token.STAR
            || t == token.EQ || t == token.NEQ || t == token.LE || t == token.GR then
          let ep := parseInfixExpression fuel leftExp (nextToken p)
          parseExpressionLoop fuel precedence ep.1 ep.2
        else if t == token.LSB then
          let ep := parseIndexExpression fuel leftExp (nextToken p)
          parseExpressionLoop fuel precedence ep.1 ep.2
        else (leftExp, p)
      else (leftExp, p)

/-- `parseCallExpression` (a nil argument list from a malformed tail behaves
as the empty one downstream). -/
def parseCallExpression : Nat → Option ast.Expression → Parser →
    Option ast.Expression × Parser
  | 0, _, p => (none, p)
  | fuel + 1, function, p =>
      let ap := parseExpressionList fuel token.RP p
      (some (.callExpression function (ap.1.getD [])), ap.2)

/-- `parseHashExpression`: `key : value` pairs between braces. -/
def parseHashExpression : Nat → Parser → Option ast.Expression × Parser
  | 0, p => (none, p)
  | fuel + 1, p =>
      let lp := parseHashLoop fuel [] p
      match lp.1 with
      | none => (none, lp.2)
      | some pairs =>
          let r := expectPeek lp.2 token.RB
          if r.1 then (some (.hashExpression pairs), r.2) else (none, r.2)

/-- The pair loop of `parseHashExpression` (map insertion as ordered
append). -/
def parseHashLoop : Nat → List (Option ast.Expression × Option ast.Expression) → Parser →
    Option (List (Option ast.Expression × Option ast.Expression)) × Parser
  | 0, _, p => (none, p)
  | fuel + 1, pairs, p =>
      if !(peekTokenIs p token.RB) then
        let p1 := nextToken p
        let kp := parseExpression fuel LOWEST p1
        let r := expectPeek kp.2 token.COLON
        if !r.1 then (none, r.2)
        else
          let p4 := nextToken r.2
          let vp := parseExpression fuel LOWEST p4
          let pairs1 := pairs ++ [(kp.1, vp.1)]
          if !(peekTokenIs vp.2 token.RB) then
            let r2 := expectPeek vp.2 token.COMMA
            if !r2.1 then (none, r2.2) else parseHashLoop fuel pairs1 r2.2
          else parseHashLoop fuel pairs1 vp.2
      else (some pairs, p)

/-- `parseExpressionList`: comma-separated expressions up to the closing
delimiter. -/
def parseExpressionList : Nat → String → Parser →
    Option (List (Option ast.Expression)) × Parser
  | 0, _, p => (none, p)
  | fuel + 1, expect, p =>
      if peekTokenIs p expect then (some [], nextToken p)
      else
        let p1 := nextToken p
        let ep := parseExpression fuel LOWEST p1
        let lp := parseExpressionListLoop fuel [ep.1] ep.2
        let r := expectPeek lp.2 expect
        if r.1 then (some lp.1, r.2) else (none, r.2)

/-- The comma loop of `parseExpressionList`. -/
def parseExpressionListLoop : Nat → List (Option ast.Expression) → Parser →
    List (Option ast.Expression) × Parser
  | 0, acc, p => (acc, p)
  | fuel + 1, acc, p =>
      if peekTokenIs p token.COMMA then
        let p1 := nextToken (nextToken p)
        let ep := parseExpression fuel LOWEST p1
        parseExpressionListLoop fuel (acc ++ [ep.1]) ep.2
      else (acc, p)

/-- `parseFunction` (a nil parameter list behaves as the empty one
downstream). -/
def parseFunction : Nat → Parser → Option ast.Expression × Parser
  | 0, p => (none, p)
  | fuel + 1, p =>
      let r1 := expectPeek p token.LP
      if !r1.1 then (none, r1.2)
      else
        let pp := parseFunctionParameters fuel r1.2
        let r2 := expectPeek pp.2 token.LB
        if !r2.1 then (none, r2.2)
        else
          let bp := parseBlockStatement fuel r2.2
          (some (.functionLiteral (pp.1.getD []) bp.1), bp.2)

/-- `parseFunctionParameters`: a possibly empty, comma-separated identifier
list closed by `)`. -/
def parseFunctionParameters : Nat → Parser → Option (List String) × Parser
  | 0, p => (none, p)
  | fuel + 1, p =>
      let p1 := nextToken p
      if curTokenIs p1 token.RP then (some [], p1)
      else
        let lp := parseFunctionParametersLoop fuel [p1.curToken.literal] p1
        let r := expectPeek lp.2 token.RP
        if r.1 then (some lp.1, r.2) else (none, r.2)

/-- The comma loop of `parseFunctionParameters`. -/
def parseFunctionParametersLoop : Nat → List String → Parser → List String × Parser
  | 0, acc, p => (acc, p)
  | fuel + 1, acc, p =>
      if peekTokenIs p token.COMMA then
        let p1 := nextToken (nextToken p)
        parseFunctionParametersLoop fuel (acc ++ [p1.curToken.literal]) p1
      else (acc, p)

/-- `parseIfExpression`: parenthesized condition, braced consequence, and an
optional braced `else` branch. -/
def parseIfExpression : Nat → Parser → Option ast.Expression × Parser
  | 0, p => (none, p)
  | fuel + 1, p =>
      let r1 := expectPeek p token.LP
      if !r1.1 then (none, r1.2)
      else
        let p2 := nextToken r1.2
        let cp := parseExpression fuel LOWEST p2
        let r2 := expectPeek cp.2 token.RP
        if !r2.1 then (none, r2.2)
        else
          let r3 := expectPeek r2.2 token.LB
          if !r3.1 then (none, r3.2)
          else
            let bp := parseBlockStatement fuel r3.2
            if peekTokenIs bp.2 token.ELSE then
              let p7 := nextToken bp.2
              let r4 := expectPeek p7 token.LB
              if !r4.1 then (none, r4.2)
              else
                let ap := parseBlockStatement fuel r4.2
                (some (.ifExpression cp.1 bp.1 (some ap.1)), ap.2)
            else (some (.ifExpression cp.1 bp.1 none), bp.2)

/-- `parseBlockStatement`: statements until `}` or `EOF` (never nil). -/
def parseBlockStatement : Nat → Parser → ast.BlockStatements × Parser
  | 0, p => (.mk [], p)
  | fuel + 1, p =>
      let lp := parseBlockLoop fuel [] (nextToken p)
      (.mk lp.1, lp.2)

/-- The statement loop of `parseBlockStatement`; a nil statement is
dropped. -/
def parseBlockLoop : Nat → List ast.Statement → Parser → List ast.Statement × Parser
  | 0, acc, p => (acc, p)
  | fuel + 1, acc, p =>
      if !(curTokenIs p token.RB) && !(curTokenIs p token.EOF) then
        let sp := parseStatement fuel p
        let acc1 := match sp.1 with
          | some s => acc ++ [s]
          | none => acc
        parseBlockLoop fuel acc1 (nextToken sp.2)
      else (acc, p)

/-- `parseGroupExpressions`: a parenthesized expression (which may itself be
nil). -/
def parseGroupExpressions : Nat → Parser → Option ast.Expression × Parser
  | 0, p => (none, p)
  | fuel + 1, p =>
      let ep := parseExpression fuel LOWEST (nextToken p)
      let r := expectPeek ep.2 token.RP
      if !r.1 then (none, r.2) else (ep.1, r.2)

/-- `parseInfixExpression`: capture the operator and its precedence, advance,
and parse the right-hand side at that precedence (left associativity). -/
def parseInfixExpression : Nat → Option ast.Expression → Parser →
    Option ast.Expression × Parser
  | 0, _, p => (none, p)
  | fuel + 1, left, p =>
      let operator := p.curToken.literal
      let precedence := curPrecedence p
      let rp := parseExpression fuel precedence (nextToken p)
      (some (.infixExpression left operator rp.1), rp.2)

/-- `parsePrefixExpression`: parse the operand at `PREFIX` precedence. -/
def parsePrefixExpression : Nat → Parser → Option ast.Expression × Parser
  | 0, p => (none, p)
  | fuel + 1, p =>
      let operator := p.curToken.literal
      let rp := parseExpression fuel PREFIXP (nextToken p)
      (some (.prefixExpression operator rp.1), rp.2)

/-- `parseArrayExpression` (a nil item list behaves as the empty one
downstream). -/
def parseArrayExpression : Nat → Parser → Option ast.Expression × Parser
  | 0, p => (none, p)
  | fuel + 1, p =>
      let ip := parseExpressionList fuel token.RSB p
      (some (.array (ip.1.getD [])), ip.2)

/-- `parseIndexExpression`: the subscript up to the closing `]`. -/
def parseIndexExpression : Nat → Option ast.Expression → Parser →
    Option ast.Expression × Parser
  | 0, _, p => (none, p)
  | fuel + 1, leftExp, p =>
      let ip := parseExpression fuel LOWEST (nextToken p)
      let r := expectPeek ip.2 token.RSB
      if r.1 then (some (.indexExpression leftExp ip.1), r.2) else (none, r.2)

/-- The statement loop of `ParseProgram`; a nil statement is dropped. -/
def ParseProgramLoop : Nat → List ast.Statement → Parser → List ast.Statement × Parser
  | 0, acc, p => (acc, p)
  | fuel + 1, acc, p =>
      if !(curTokenIs p token.EOF) then
        let sp := parseStatement fuel p
        let acc1 := match sp.1 with
          | some s => acc ++ [s]
          | none => acc
        ParseProgramLoop fuel acc1 (nextToken sp.2)
      else (acc, p)

end

/-- `ParseProgram`: statements until `EOF`. -/
def ParseProgram (fuel : Nat) (p : Parser) : List ast.Statement × Parser :=
  ParseProgramLoop fuel [] p

end parser

/-- The REPL pipeline on one source line: lex, parse, evaluate the program in
a fresh environment (fuel bounds are generous for the inputs considered). -/
def runProgram (input : String) : evaluator.Res :=
  (evaluator.evalProgram 1000
    (parser.ParseProgram 1000 (parser.New (lexer.lexAll 1000 (lexer.New input)))).1
    object.newEnviroment).1

end Monkey

open Monkey Monkey.object Monkey.ast Monkey.evaluator

/-- The continue condition shared by the statement loops of `evalProgram` and
`evalStatements`: the running result is nil, or an object that is neither a
`ReturnValue` nor an `Error` (the loops test this by type switch and by type
tag respectively, which agree). -/
def goContinue : GoObj → Bool
  | some (.returnValue _) => false
  | some (.error _) => false
  | _ => true

/-- A statement sequence produces a `ReturnValue` carrying `v`: some prefix of
ordinary (continuing) statements, then a statement whose evaluation is a
`ReturnValue` object, mirroring the iteration structure of the two statement
loops. -/
inductive ReturnsVia : Nat → List Statement → Env → GoObj → Env → Prop where
  | head (fuel : Nat) (s : Statement) (rest : List Statement) (env : Env) (v : GoObj) (env1 : Env)
      (h : evalStmt fuel s env = (Res.obj (some (.returnValue v)), env1)) :
      ReturnsVia (fuel + 1) (s :: rest) env v env1
  | skip (fuel : Nat) (s : Statement) (rest : List Statement) (env : Env) (o : GoObj)
      (env1 : Env) (v : GoObj) (env2 : Env)
      (h : evalStmt fuel s env = (Res.obj o, env1)) (hc : goContinue o = true)
      (hrest : ReturnsVia fuel rest env1 v env2) :
      ReturnsVia (fuel + 1) (s :: rest) env v env2

/-- C2 counterexample: evaluating the empty hash literal yields nil, not a
Hash object. -/
theorem hash_literal_eval_counterexample :
    (evalExpr 5 (some (.hashExpression [])) newEnviroment).1 = Res.obj none
      ∧ (evalExpr 5 (some (.hashExpression [])) newEnviroment).1
          ≠ Res.obj (some (Obj.hash [])) := by
  refine ⟨rfl, fun h => ?_⟩
  rw [show (evalExpr 5 (some (.hashExpression [])) newEnviroment).1 = Res.obj none from rfl] at h
  exact Option.noConfusion (Res.obj.inj h)

/-- C2 (amended): `Eval` has no case for a hash-literal node, so evaluating
one falls through the switch and yields nil — no Hash object is ever
constructed, whatever the pairs and environment. -/
theorem hash_literal_eval_yields_nil :
    ∀ (fuel : Nat) (pairs : List (Option Expression × Option Expression)) (env : Env),
      evalExpr (fuel + 1) (some (.hashExpression pairs)) env = (Res.obj none, env) := by
  intro fuel pairs env
  rfl

/-- C3 counterexample: applying a one-parameter function to zero arguments is
a host-level panic (out-of-range argument index), not a successful call that
later reports "identifier not found: x". -/
theorem applyFunction_missing_args_counterexample :
    applyFunction 5
        (some (Obj.function ["x"] (.mk [Statement.expressionStatement (some (.identifier ("x")))])
          newEnviroment)) []
      = Res.panic
      ∧ Res.panic ≠ Res.obj (some (Obj.error ("identifier not found: x"))) := by
  refine ⟨rfl, fun h => ?_⟩
  exact Res.noConfusion h

/-- Binding fewer arguments than declared parameters always fails: the
positional lookup runs past the end of the argument list. -/
theorem bindAll_short :
    ∀ (parameters : List String) (params : List GoObj) (env : Env),
      params.length < parameters.length → bindAll params parameters env = none := by
  intro parameters
  induction parameters with
  | nil => intro params env h; simp at h
  | cons p ps ih =>
      intro params env h
      cases params with
      | nil => rfl
      | cons a rest =>
          simp only [bindAll]
          exact ih rest _ (by simpa using h)

/-- C3 (amended): `applyFunction` performs no arity check, but supplying fewer
arguments than parameters does not leave trailing parameters unbound — the
binding loop indexes the argument list out of range, a host-level panic, so
the call never reaches the body (and no later "identifier not found" arises
from it). -/
theorem applyFunction_missing_args_panics :
    ∀ (fuel : Nat) (parameters : List String) (body : BlockStatements) (fenv : Env)
      (params : List GoObj),
      params.length < parameters.length →
      applyFunction (fuel + 1) (some (.function parameters body fenv)) params = Res.panic := by
  intro fuel parameters body fenv params h
  have hb := bindAll_short parameters params (newEnclosedEnviroment fenv) h
  simp [applyFunction, hb]

/-- C3 witness: the amended theorem at a concrete one-parameter function and
an empty argument list. -/
theorem applyFunction_missing_args_panics_witness :
    applyFunction 1 (some (Obj.function ["x"] (.mk []) newEnviroment)) [] = Res.panic :=
  applyFunction_missing_args_panics 0 ["x"] (.mk []) newEnviroment [] (by decide)

/-- C4: `applyFunction` rejects every builtin call whose argument count is not
exactly 1 before the builtin's body runs, so `push([1], 2)` yields the Error
"wrong number of arguments. got=2, want=1" — although the push builtin's own
body, invoked on the same two arguments, validates `want=2` itself and
returns the appended Array. -/
theorem builtin_push_two_args_rejected_before_body :
    applyFunction 1 (some (Obj.builtin ("push")))
        [some (.array [some (.integer 1)]), some (.integer 2)]
      = Res.obj (some (Obj.error ("wrong number of arguments. got=2, want=1")))
      ∧ builtinFn ("push") [some (.array [some (.integer 1)]), some (.integer 2)]
        = Res.obj (some (Obj.array [some (.integer 1), some (.integer 2)])) :=
  ⟨rfl, rfl⟩

/-- C5 counterexample: `"a" == "a"` (two String operands under `==`) yields
the "unknown operator" Error from the string-infix path, not the boolean
`FALSE` of the identity comparison. -/
theorem string_equality_counterexample :
    evalInfixExpression ("==") (some (Obj.string ("a"))) (some (Obj.string ("a")))
      = Res.obj (some (Obj.error ("unknown operator: STRING == STRING")))
      ∧ evalInfixExpression ("==") (some (Obj.string ("a"))) (some (Obj.string ("a")))
          ≠ Res.obj (some FALSE) := by
  refine ⟨rfl, fun h => ?_⟩
  rw [show evalInfixExpression ("==") (some (Obj.string ("a"))) (some (Obj.string ("a")))
      = Res.obj (some (Obj.error ("unknown operator: STRING == STRING"))) from rfl] at h
  exact Obj.noConfusion (Option.some.inj (Res.obj.inj h))

/-- C5 (amended): two String operands under `==` are intercepted by the
dedicated string-infix path, which defines only `+`, so every such comparison
is the Error "unknown operator: STRING == STRING"; the identity-comparison
fallthrough is never reached for two Strings. -/
theorem string_equality_unknown_operator :
    ∀ (s t : String),
      evalInfixExpression ("==") (some (.string t)) (some (.string s))
        = Res.obj (some (Obj.error ("unknown operator: STRING == STRING"))) := by
  intro s t
  rfl

/-- C6: the tokenizer has no case for `:`; the colon reaches the default
branch and, being neither letter nor digit, becomes an `ILLEGAL` token — not
the `COLON` token the lexer's own test (`TestNextToken`) expects for the
trailing `:` of its input. -/
theorem colon_lexes_as_illegal :
    (lexer.NextToken 50 (lexer.New (":"))).1 = ⟨token.ILLEGAL, (":")⟩
      ∧ token.ILLEGAL ≠ token.COLON :=
  ⟨rfl, by decide⟩

/-- C9: precedence resolution — `-1 + 2 * 3` evaluates to 5, `1 + 2 * 3`
to 7, and `(1 + 2) * 3` to 9, through the full lex/parse/evaluate
pipeline. -/
theorem precedence_examples :
    runProgram ("-1 + 2 * 3") = Res.obj (some (Obj.integer 5))
      ∧ runProgram ("1 + 2 * 3") = Res.obj (some (Obj.integer 7))
      ∧ runProgram ("(1 + 2) * 3") = Res.obj (some (Obj.integer 9)) :=
  ⟨rfl, rfl, rfl⟩

/-- C10: integer division is unguarded — a zero right operand is a host-level
panic (never an Error object), and under the precondition that the divisor is
nonzero the result is the host's truncated division. -/
theorem integer_division_unguarded :
    (∀ (left_val : Int),
        evalInfixIntegerExpression ("/") (some (.integer 0)) (some (.integer left_val))
          = Res.panic)
      ∧ (∀ (left_val right_val : Int), right_val ≠ 0 →
          evalInfixIntegerExpression ("/") (some (.integer right_val)) (some (.integer left_val))
            = Res.obj (some (.integer (Int.tdiv left_val right_val)))) := by
  refine ⟨fun left_val => rfl, fun left_val right_val h => ?_⟩
  have hb : (right_val == 0) = false := beq_eq_false_iff_ne.mpr h
  simp [evalInfixIntegerExpression, hb]

/-- C10 witness: division by the concrete nonzero divisor 2. -/
theorem integer_division_unguarded_witness :
    evalInfixIntegerExpression ("/") (some (Obj.integer 2)) (some (Obj.integer 7))
      = Res.obj (some (Obj.integer (Int.tdiv 7 2))) :=
  integer_division_unguarded.2 7 2 (by decide)

/-- C7: an if-condition object (already known non-Error) is falsy exactly when
it is the `FALSE` Boolean singleton: then the alternative (or `NULL` when
absent) is evaluated; for every other object — the `NULL` singleton
included — the consequence is evaluated. -/
theorem if_condition_falsy_iff_false_singleton :
    ∀ (fuel : Nat) (cond : Option Expression) (conseq : BlockStatements)
      (alt : Option BlockStatements) (env env1 : Env) (o : Obj),
      evalExpr fuel cond env = (Res.obj (some o), env1) →
      isError (some o) = false →
      (o = FALSE →
        evalIfExpression (fuel + 1) cond conseq alt env
          = (match alt with
             | none => (Res.obj (some NULL), env1)
             | some b => evalStatements fuel b.statements env1))
      ∧ (o ≠ FALSE →
        evalIfExpression (fuel + 1) cond conseq alt env
          = evalStatements fuel conseq.statements env1) := by
  intro fuel cond conseq alt env env1 o hcond herr
  constructor
  · intro hfalse
    subst hfalse
    simp [evalIfExpression, hcond, isError, goIdentityEq, Obj.type, FALSE, NULL,
      BOOLEAN_OBJ, ERROR_OBJ]
  · intro hne
    cases o with
    | boolean b =>
        cases b with
        | false => exact absurd rfl hne
        | true =>
            simp [evalIfExpression, hcond, isError, goIdentityEq, Obj.type, FALSE, NULL,
              BOOLEAN_OBJ, ERROR_OBJ]
    | null =>
        simp [evalIfExpression, hcond, isError, goIdentityEq, Obj.type, FALSE, NULL,
          BOOLEAN_OBJ, ERROR_OBJ, NULL_OBJ]
    | integer v =>
        simp [evalIfExpression, hcond, isError, goIdentityEq, Obj.type, FALSE, NULL,
          BOOLEAN_OBJ, ERROR_OBJ, INTEGER_OBJ]
    | returnValue v =>
        simp [evalIfExpression, hcond, isError, goIdentityEq, Obj.type, FALSE, NULL,
          BOOLEAN_OBJ, ERROR_OBJ, RETURN_VALUE_OBJ]
    | error m =>
        rw [show isError (some (Obj.error m)) = true from rfl] at herr
        exact Bool.noConfusion herr
    | function ps body fenv =>
        simp [evalIfExpression, hcond, isError, goIdentityEq, Obj.type, FALSE, NULL,
          BOOLEAN_OBJ, ERROR_OBJ, FUNCTION_OBJ]
    | string s =>
        simp [evalIfExpression, hcond, isError, goIdentityEq, Obj.type, FALSE, NULL,
          BOOLEAN_OBJ, ERROR_OBJ, STRING_OBJ]
    | builtin n =>
        simp [evalIfExpression, hcond, isError, goIdentityEq, Obj.type, FALSE, NULL,
          BOOLEAN_OBJ, ERROR_OBJ, BUILTIN_OBJ]
    | array els =>
        simp [evalIfExpression, hcond, isError, goIdentityEq, Obj.type, FALSE, NULL,
          BOOLEAN_OBJ, ERROR_OBJ, ARRAY_OBJ]
    | hash prs =>
        simp [evalIfExpression, hcond, isError, goIdentityEq, Obj.type, FALSE, NULL,
          BOOLEAN_OBJ, ERROR_OBJ, HASH_OBJ]

/-- C7 witness: a condition evaluating to the `NULL` singleton selects the
consequence, never the alternative. -/
theorem if_condition_falsy_iff_false_singleton_witness :
    evalIfExpression 4 (some (.ifExpression (some (.boolean false)) (.mk []) none))
        (.mk [Statement.expressionStatement (some (.integerLiteral 1))])
        (some (.mk [Statement.expressionStatement (some (.integerLiteral 2))])) newEnviroment
      = evalStatements 3 [Statement.expressionStatement (some (.integerLiteral 1))]
          newEnviroment :=
  (if_condition_falsy_iff_false_singleton 3
      (some (.ifExpression (some (.boolean false)) (.mk []) none))
      (.mk [Statement.expressionStatement (some (.integerLiteral 1))])
      (some (.mk [Statement.expressionStatement (some (.integerLiteral 2))]))
      newEnviroment newEnviroment NULL rfl rfl).2 (fun h => Obj.noConfusion h)

/-- C8: Array-by-Integer indexing — an in-range index yields the element, a
negative or past-the-end index yields the `NULL` singleton (not an Error),
and indexing any non-Array left operand is the "index operator not
supported" Error. -/
theorem array_indexing_spec :
    (∀ (elements : List GoObj) (i : Int), 0 ≤ i → i < (elements.length : Int) →
        evalIndexExpression (some (.array elements)) (some (.integer i))
          = Res.obj (elements.getD i.toNat none))
      ∧ (∀ (elements : List GoObj) (i : Int), i < 0 ∨ (elements.length : Int) ≤ i →
          evalIndexExpression (some (.array elements)) (some (.integer i))
            = Res.obj (some NULL))
      ∧ (∀ (o : Obj) (index : GoObj), o.type ≠ ARRAY_OBJ →
          evalIndexExpression (some o) index
            = Res.obj (some (newError (("index operator not supported: ") ++ o.type)))) := by
  refine ⟨?_, ?_, ?_⟩
  · intro elements i h0 hlen
    have hno : ¬ (i < 0 ∨ i > (elements.length : Int) - 1) := by omega
    simp [evalIndexExpression, evalArrayIndexExpression, Obj.type, hno]
  · intro elements i hout
    have hyes : i < 0 ∨ i > (elements.length : Int) - 1 := by omega
    simp [evalIndexExpression, evalArrayIndexExpression, Obj.type, hyes]
  · intro o index h
    have hb : (o.type == ARRAY_OBJ) = false := beq_eq_false_iff_ne.mpr h
    simp [evalIndexExpression, hb]

/-- C8 witness: `[1,2,3][1]` is Integer 2, `[1,2,3][5]` is `NULL`, and
indexing the Integer 5 is the unsupported-operator Error. -/
theorem array_indexing_spec_witness :
    evalIndexExpression
        (some (Obj.array [some (.integer 1), some (.integer 2), some (.integer 3)]))
        (some (Obj.integer 1))
      = Res.obj (some (Obj.integer 2))
      ∧ evalIndexExpression
          (some (Obj.array [some (.integer 1), some (.integer 2), some (.integer 3)]))
          (some (Obj.integer 5))
        = Res.obj (some NULL)
      ∧ evalIndexExpression (some (Obj.integer 5)) (some (Obj.integer 0))
        = Res.obj (some (Obj.error ("index operator not supported: INTEGER"))) := by
  refine ⟨?_, ?_, ?_⟩
  · have h := array_indexing_spec.1 [some (.integer 1), some (.integer 2), some (.integer 3)] 1
      (by decide) (by decide)
    simpa using h
  · exact array_indexing_spec.2.1 [some (.integer 1), some (.integer 2), some (.integer 3)] 5
      (by decide)
  · have h := array_indexing_spec.2.2 (Obj.integer 5) (some (Obj.integer 0)) (by decide)
    simpa [Obj.type, newError] using h

/-- C1 counterexample: the top-level program `return 5;` evaluates to the
Integer 5 itself — `evalProgram` unwraps the `ReturnValue` rather than
returning the `ReturnValue` object upward. -/
theorem evalProgram_unwraps_return_counterexample :
    (evalProgram 3 [Statement.returnStatement (some (.integerLiteral 5))] newEnviroment).1
        = Res.obj (some (Obj.integer 5))
      ∧ (evalProgram 3 [Statement.returnStatement (some (.integerLiteral 5))] newEnviroment).1
          ≠ Res.obj (some (Obj.returnValue (some (Obj.integer 5)))) := by
  refine ⟨rfl, fun h => ?_⟩
  rw [show (evalProgram 3 [Statement.returnStatement (some (.integerLiteral 5))] newEnviroment).1
      = Res.obj (some (Obj.integer 5)) from rfl] at h
  exact Obj.noConfusion (Option.some.inj (Res.obj.inj h))

/-- C1 (amended): when a statement sequence produces a `ReturnValue`, a bare
block (`evalStatements`) returns the `ReturnValue` object itself upward
unchanged, while the top-level program (`evalProgram`) — like function
application — unwraps it to its inner object. -/
theorem return_propagation_program_vs_block :
    ∀ {fuel : Nat} {stmts : List Statement} {env : Env} {v : GoObj} {env' : Env},
      ReturnsVia fuel stmts env v env' →
      evalStatements fuel stmts env = (Res.obj (some (.returnValue v)), env')
        ∧ evalProgram fuel stmts env = (Res.obj v, env') := by
  intro fuel stmts env v env' h
  induction h with
  | head fuel s rest env v env1 h =>
      refine ⟨?_, ?_⟩
      · simp [evalStatements, h, Obj.type, RETURN_VALUE_OBJ]
      · simp [evalProgram, h]
  | skip fuel s rest env o env1 v env2 h hc hrest ih =>
      obtain ⟨s2, rest2, rfl⟩ : ∃ a l, rest = a :: l := by
        cases hrest with
        | head fuel2 s2 rest2 env2a v2 env1b h2 => exact ⟨_, _, rfl⟩
        | skip fuel2 s2 rest2 env2a o2 env1b v2 env2b h2 hc2 hr2 => exact ⟨_, _, rfl⟩
      rcases o with _ | o2
      · exact ⟨by simp [evalStatements, h, ih.1], by simp [evalProgram, h, ih.2]⟩
      · cases o2
        all_goals try exact Bool.noConfusion hc
        all_goals
          exact ⟨by simp [evalStatements, h, ih.1, Obj.type, INTEGER_OBJ, BOOLEAN_OBJ,
                    NULL_OBJ, FUNCTION_OBJ, STRING_OBJ, BUILTIN_OBJ, ARRAY_OBJ, HASH_OBJ,
                    RETURN_VALUE_OBJ, ERROR_OBJ],
                by simp [evalProgram, h, ih.2]⟩

/-- C1 witness: the one-statement sequence `return 5;` — the bare block keeps
the `ReturnValue` wrapper, the program yields the unwrapped Integer 5. -/
theorem return_propagation_program_vs_block_witness :
    evalStatements 3 [Statement.returnStatement (some (.integerLiteral 5))] newEnviroment
        = (Res.obj (some (Obj.returnValue (some (Obj.integer 5)))), newEnviroment)
      ∧ evalProgram 3 [Statement.returnStatement (some (.integerLiteral 5))] newEnviroment
        = (Res.obj (some (Obj.integer 5)), newEnviroment) :=
  return_propagation_program_vs_block
    (ReturnsVia.head 2 (Statement.returnStatement (some (.integerLiteral 5))) []
      newEnviroment (some (Obj.integer 5)) newEnviroment rfl)
